import Mathlib

/-!
Shallow embedding of the `twinkle` MicroPython server (`src/main.py`):
a Gemini static-content server with a bounded mtime-keyed file cache,
a substring-based path sandbox (`safe_join`), and a line-oriented file
transfer protocol with chunked upload reassembly.

Strings and byte strings are modelled as `List Char`; Python `dict`s
(which preserve insertion order, and keep an existing key's position on
re-assignment) are modelled as association lists in insertion order.
-/

namespace Twinkle

/-! ## Python string primitives -/

/-- Characters stripped by Python's no-argument `str.strip()` (ASCII whitespace;
unicode whitespace beyond ASCII is out of scope of the model). -/
def isPyWS (c : Char) : Bool :=
  c = ' ' || c = '\t' || c = '\n' || c = '\r' || c = '\x0b' || c = '\x0c'

/-- Drop matching characters from the end of a list. -/
def dropWhileEndL (p : Char → Bool) (l : List Char) : List Char :=
  (l.reverse.dropWhile p).reverse

/-- Python `str.strip(cs)` / `str.strip()`: remove matching characters from
both ends. -/
def pyStripWith (p : Char → Bool) (l : List Char) : List Char :=
  dropWhileEndL p (l.dropWhile p)

/-- Python `s.strip(c)` for a single-character argument. -/
def pyStrip (c : Char) (l : List Char) : List Char :=
  pyStripWith (· == c) l

/-- Python `s.strip()` (whitespace). -/
def pyStripWS (l : List Char) : List Char :=
  pyStripWith isPyWS l

/-- Python `s.lstrip(c)` for a single-character argument. -/
def pyLStrip (c : Char) (l : List Char) : List Char :=
  l.dropWhile (· == c)

/-- Python `s.rstrip(c)` for a single-character argument. -/
def pyRStrip (c : Char) (l : List Char) : List Char :=
  dropWhileEndL (· == c) l

/-- Python `sep.join(parts)`. -/
def pyJoin (sep : List Char) : List (List Char) → List Char
  | [] => []
  | [x] => x
  | x :: y :: rest => x ++ sep ++ pyJoin sep (y :: rest)

/-- Python `s.split(c)` for a one-character separator: splits at every
occurrence, keeping empty fields. -/
def pySplitChar (c : Char) : List Char → List (List Char)
  | [] => [[]]
  | a :: rest =>
    let s := pySplitChar c rest
    if a = c then [] :: s
    else
      match s with
      | [] => [[a]]
      | h :: t => (a :: h) :: t

/-- Accumulator for `pySplitWS`: `cur` holds the current token reversed. -/
def pySplitWSGo (cur : List Char) : List Char → List (List Char)
  | [] => if cur = [] then [] else [cur.reverse]
  | c :: rest =>
    if isPyWS c then
      if cur = [] then pySplitWSGo [] rest
      else cur.reverse :: pySplitWSGo [] rest
    else pySplitWSGo (c :: cur) rest

/-- Python `s.split()` (no argument): split on whitespace runs, no empty fields. -/
def pySplitWS (l : List Char) : List (List Char) :=
  pySplitWSGo [] l

/-- Python `s.split(maxsplit=1)` (whitespace separator): first token, then the
remainder with its leading whitespace removed but trailing whitespace kept. -/
def pySplitWS1 (l : List Char) : List (List Char) :=
  let l1 := l.dropWhile isPyWS
  if l1 = [] then []
  else
    let tok := l1.takeWhile (fun c => !isPyWS c)
    let rest := (l1.dropWhile (fun c => !isPyWS c)).dropWhile isPyWS
    if rest = [] then [tok] else [tok, rest]

/-- Helper for `pyFindChar`: first index of `c`, offset by `i`. -/
def pyFindCharGo (c : Char) (i : Nat) : List Char → Option Nat
  | [] => none
  | a :: rest => if a = c then some i else pyFindCharGo c (i + 1) rest

/-- Python `s.find(c)` for a single character, as `Option` (Python uses `-1`
for absence; the surrounding code only ever compares against `-1`). -/
def pyFindChar (l : List Char) (c : Char) : Option Nat :=
  pyFindCharGo c 0 l

/-- Python `s.find(c, start)`. -/
def pyFindCharFrom (l : List Char) (c : Char) (start : Nat) : Option Nat :=
  (pyFindCharGo c 0 (l.drop start)).map (· + start)

/-- Digit accumulator for `pyInt`. -/
def parseDigitsGo (acc : Nat) : List Char → Option Nat
  | [] => some acc
  | c :: r =>
    if '0' ≤ c && c ≤ '9' then
      parseDigitsGo (acc * 10 + (c.toNat - '0'.toNat)) r
    else none

/-- Python `int(s)`: strips whitespace, allows one sign, then ASCII digits.
(Underscore digit separators and non-ASCII digits are out of scope.)
`none` models a raised `ValueError`. -/
def pyInt (s : List Char) : Option Int :=
  match pyStripWS s with
  | [] => none
  | '-' :: ds => if ds = [] then none else (parseDigitsGo 0 ds).map (fun n => -(n : Int))
  | '+' :: ds => if ds = [] then none else (parseDigitsGo 0 ds).map (fun n => (n : Int))
  | ds => (parseDigitsGo 0 ds).map (fun n => (n : Int))

/-- Python `s.startswith(pre)`. -/
def listStartsWith (pre l : List Char) : Bool :=
  decide (pre <+: l)

/-- Truthiness of an optional Python string / bytes value: `None` and the
empty string are falsy. -/
def pyTruthyStr : Option (List Char) → Bool
  | none => false
  | some s => !s.isEmpty

/-! ## Python dict model (insertion-ordered association list) -/

/-- A Python `dict`: entries in insertion order, keys unique by construction
through `pdSet`. -/
abbrev PyDict (K V : Type) := List (K × V)

/-- `d[k]` lookup (`d.get(k)`). -/
def pdGet {K V : Type} [DecidableEq K] (d : PyDict K V) (k : K) : Option V :=
  match d with
  | [] => none
  | (k', v) :: rest => if k' = k then some v else pdGet rest k

/-- `d[k] = v`: re-assignment keeps the key's insertion position, a new key
is appended at the end — exactly CPython/MicroPython dict semantics. -/
def pdSet {K V : Type} [DecidableEq K] (d : PyDict K V) (k : K) (v : V) : PyDict K V :=
  match d with
  | [] => [(k, v)]
  | (k', v') :: rest => if k' = k then (k, v) :: rest else (k', v') :: pdSet rest k v

/-- `d.pop(k)`: remove the entry with key `k` (first occurrence). -/
def pdPop {K V : Type} [DecidableEq K] (d : PyDict K V) (k : K) : PyDict K V :=
  match d with
  | [] => []
  | (k', v') :: rest => if k' = k then rest else (k', v') :: pdPop rest k

/-- `list(d.keys())[-1]`: the most recently *first-inserted* key. -/
def pdLastKey {K V : Type} (d : PyDict K V) : Option K :=
  (d.map Prod.fst).getLast?

/-! ## Dict lemmas -/

theorem pdGet_pdSet_self {K V : Type} [DecidableEq K] (d : PyDict K V) (k : K) (v : V) :
    pdGet (pdSet d k v) k = some v := by
  induction d with
  | nil => simp [pdGet, pdSet]
  | cons hd tl ih =>
    obtain ⟨k', v'⟩ := hd
    by_cases h : k' = k
    · simp [pdGet, pdSet, h]
    · simp [pdGet, pdSet, h, ih]

theorem pdGet_pdSet_ne {K V : Type} [DecidableEq K] (d : PyDict K V) (k k' : K) (v : V)
    (h : k' ≠ k) : pdGet (pdSet d k v) k' = pdGet d k' := by
  have hk : k ≠ k' := fun hh => h hh.symm
  induction d with
  | nil => simp [pdGet, pdSet, hk]
  | cons hd tl ih =>
    obtain ⟨k₀, v₀⟩ := hd
    by_cases h0 : k₀ = k
    · subst h0
      simp only [pdSet, if_pos rfl, pdGet]
      rw [if_neg hk, if_neg hk]
    · simp only [pdSet, if_neg h0, pdGet]
      by_cases h1 : k₀ = k'
      · simp [h1]
      · simp [h1, ih]

theorem pdSet_map_fst_of_mem {K V : Type} [DecidableEq K] (d : PyDict K V) (k : K) (v : V)
    (h : k ∈ d.map Prod.fst) : (pdSet d k v).map Prod.fst = d.map Prod.fst := by
  induction d with
  | nil => simp at h
  | cons hd tl ih =>
    obtain ⟨k₀, v₀⟩ := hd
    by_cases h0 : k₀ = k
    · subst h0; simp [pdSet]
    · simp only [List.map_cons, List.mem_cons] at h
      rcases h with h | h
      · exact absurd h.symm h0
      · simp [pdSet, if_neg h0, ih h]

theorem pdGet_isSome_of_mem {K V : Type} [DecidableEq K] (d : PyDict K V) (k : K) (v : V)
    (h : (k, v) ∈ d) : (pdGet d k).isSome = true := by
  induction d with
  | nil => simp at h
  | cons hd tl ih =>
    obtain ⟨k₀, v₀⟩ := hd
    by_cases h0 : k₀ = k
    · simp [pdGet, h0]
    · rcases List.mem_cons.mp h with h1 | h1
      · cases h1; simp at h0
      · simp [pdGet, h0, ih h1]

theorem pdGet_pdSet_isSome {K V : Type} [DecidableEq K] (d : PyDict K V) (p k : K) (v : V)
    (h : (pdGet d k).isSome = true) : (pdGet (pdSet d p v) k).isSome = true := by
  by_cases hk : k = p
  · subst hk; simp [pdGet_pdSet_self]
  · rw [pdGet_pdSet_ne d p k v hk]; exact h

/-! ## Path resolver (`safe_join`, `src/main.py` lines 53–57) -/

/-- The literal substring `".."`. -/
def dotdot : List Char := ['.', '.']

/-- `PUBLIC_DIR = "/public"`. -/
def PUBLIC_DIR : List Char := "/public".data

/--
```python
def safe_join(base, *paths):
    full = "/".join([base.strip("/")] + [p.strip("/") for p in paths])
    if ".." in full:
        return None
    return full
```
`none` models the rejected (`None`) result. The `".." in full` test is a
substring-level check, modelled as list-infix. -/
def safe_join (base : List Char) (paths : List (List Char)) : Option (List Char) :=
  let full := pyJoin ['/'] (pyStrip '/' base :: paths.map (pyStrip '/'))
  if dotdot <:+: full then none else some full

/-! ### Infix plumbing for the `safe_join` rejection proof -/

theorem infix_trans_list {m l₁ l₂ : List Char} (h1 : m <:+: l₁) (h2 : l₁ <:+: l₂) :
    m <:+: l₂ := by
  obtain ⟨s, t, rfl⟩ := h1
  obtain ⟨s', t', rfl⟩ := h2
  exact ⟨s' ++ s, t ++ t', by simp [List.append_assoc]⟩

theorem infix_reverse_of {m l : List Char} (h : m <:+: l) : m.reverse <:+: l.reverse := by
  obtain ⟨s, t, rfl⟩ := h
  exact ⟨t.reverse, s.reverse, by simp⟩

/-- A nonempty infix that avoids the dropped character survives `dropWhile`. -/
theorem infix_dropWhile_of_not_mem (c : Char) :
    ∀ (l m : List Char), c ∉ m → m ≠ [] → m <:+: l →
      m <:+: l.dropWhile (· == c) := by
  intro l
  induction l with
  | nil =>
    intro m _ hne h
    obtain ⟨s, t, hst⟩ := h
    have : m = [] := by
      cases s <;> cases m <;> simp_all
    exact absurd this hne
  | cons a tl ih =>
    intro m hc hne h
    by_cases hac : a = c
    · subst hac
      have hm : m <:+: tl := by
        obtain ⟨s, t, hst⟩ := h
        cases s with
        | nil =>
          cases m with
          | nil => exact absurd rfl hne
          | cons mh mt =>
            simp only [List.nil_append, List.cons_append, List.cons.injEq] at hst
            exact absurd hst.1 (by intro hh; exact hc (hh ▸ List.mem_cons_self _ _))
        | cons sh st =>
          simp only [List.cons_append, List.cons.injEq] at hst
          exact ⟨st, t, hst.2⟩
      have : (a :: tl).dropWhile (· == a) = tl.dropWhile (· == a) := by
        simp [List.dropWhile_cons]
      rw [this]
      exact ih m hc hne hm
    · have : (a :: tl).dropWhile (· == c) = a :: tl := by
        simp [List.dropWhile_cons, hac]
      rw [this]
      exact h

/-- A nonempty infix avoiding the stripped character survives `pyStrip`. -/
theorem infix_pyStrip_of_not_mem (c : Char) (m l : List Char)
    (hc : c ∉ m) (hne : m ≠ []) (h : m <:+: l) : m <:+: pyStrip c l := by
  have h1 : m <:+: l.dropWhile (· == c) := infix_dropWhile_of_not_mem c l m hc hne h
  have h2 : m.reverse <:+: (l.dropWhile (· == c)).reverse := infix_reverse_of h1
  have hc' : c ∉ m.reverse := by simpa using hc
  have hne' : m.reverse ≠ [] := by simpa using hne
  have h3 : m.reverse <:+: ((l.dropWhile (· == c)).reverse).dropWhile (· == c) :=
    infix_dropWhile_of_not_mem c _ m.reverse hc' hne' h2
  have h4 := infix_reverse_of h3
  rw [List.reverse_reverse] at h4
  exact h4

/-- Every element of the joined list is an infix of the join. -/
theorem infix_pyJoin_of_mem (sep : List Char) :
    ∀ (L : List (List Char)) (x : List Char), x ∈ L → x <:+: pyJoin sep L := by
  intro L
  induction L with
  | nil => intro x hx; simp at hx
  | cons a t ih =>
    intro x hx
    cases t with
    | nil =>
      have : x = a := by simpa using hx
      subst this
      exact ⟨[], [], by simp [pyJoin]⟩
    | cons b t' =>
      rcases List.mem_cons.mp hx with h | h
      · subst h
        exact ⟨[], sep ++ pyJoin sep (b :: t'), by simp [pyJoin]⟩
      · have hx' := ih x h
        obtain ⟨s, u, hsu⟩ := hx'
        exact ⟨a ++ sep ++ s, u, by
          simp only [pyJoin]
          rw [← hsu]
          simp [List.append_assoc]⟩

/-- `pySplitChar` always yields at least one field. -/
theorem pySplitChar_ne_nil (c : Char) (l : List Char) : pySplitChar c l ≠ [] := by
  induction l with
  | nil => simp [pySplitChar]
  | cons a rest ih =>
    simp only [pySplitChar]
    by_cases hac : a = c
    · simp [hac]
    · simp only [if_neg hac]
      cases hs : pySplitChar c rest <;> simp

/-- Splitting and rejoining on the same character is the identity. -/
theorem pyJoin_pySplitChar (c : Char) :
    ∀ l : List Char, pyJoin [c] (pySplitChar c l) = l := by
  intro l
  induction l with
  | nil => simp [pySplitChar, pyJoin]
  | cons a rest ih =>
    by_cases hac : a = c
    · subst hac
      simp only [pySplitChar, if_pos rfl]
      cases hs : pySplitChar a rest with
      | nil => exact absurd hs (pySplitChar_ne_nil a rest)
      | cons h t =>
        rw [hs] at ih
        simp only [pyJoin]
        rw [ih]
        simp
    · simp only [pySplitChar, if_neg hac]
      cases hs : pySplitChar c rest with
      | nil => exact absurd hs (pySplitChar_ne_nil c rest)
      | cons h t =>
        rw [hs] at ih
        cases t with
        | nil =>
          simp only [pyJoin] at ih ⊢
          rw [ih]
        | cons y t' =>
          simp only [pyJoin] at ih ⊢
          rw [List.cons_append, List.cons_append, ih]

/-- A field of the Python split is an infix of the original string. -/
theorem infix_of_mem_pySplitChar (c : Char) (l x : List Char)
    (h : x ∈ pySplitChar c l) : x <:+: l := by
  have h1 : x <:+: pyJoin [c] (pySplitChar c l) :=
    infix_pyJoin_of_mem [c] (pySplitChar c l) x h
  rwa [pyJoin_pySplitChar] at h1

/-! ## Filesystem abstraction -/

/-- The fields of `os.stat` the server consults: `st[0]` (mode word, tested
against `0x4000` for directories and `0x8000` for regular files), `st[6]`
(size) and `st[8]` (mtime, the cache's modification marker). -/
structure Stat where
  mode : Nat
  size : Nat
  mtime : Int
deriving DecidableEq

/-- `st[0] & 0x4000`, as a truth value. -/
def statIsDir (st : Stat) : Bool := st.mode &&& 0x4000 != 0

/-- `st[0] & 0x8000`, as a truth value. -/
def statIsFile (st : Stat) : Bool := st.mode &&& 0x8000 != 0

/-- The filesystem as seen by the server. `none` results model a raised
`OSError` (`stat` failure, `open`/`read` failure, `listdir` failure). -/
structure FS where
  stat : List Char → Option Stat
  read : List Char → Option (List Char)
  listdir : List Char → Option (List (List Char))
  pathExists : List Char → Bool

/-! ## Content cache (`get_file_content`, `src/main.py` lines 113–132) -/

/-- `CACHE_ENABLED = True`. -/
def CACHE_ENABLED : Bool := true

/-- `CACHE_MAX_SIZE = 50`. -/
def CACHE_MAX_SIZE : Nat := 50

/-- The global `file_cache` dict: resolved path ↦ (content bytes, mtime),
in insertion order. -/
abbrev Cache := PyDict (List Char) (List Char × Int)

/-- Result of one `get_file_content` call: the returned value, the cache
after the call, and whether the filesystem content was read (`open`/`read`
attempted) — the stat itself is not counted. -/
structure GetResult where
  content : Option (List Char)
  cache : Cache
  didRead : Bool
deriving DecidableEq

/-- The miss path of `get_file_content`: read the file, then (cache enabled)
evict the first-inserted entry when at capacity and insert/refresh the key.
`file_cache.pop(next(iter(file_cache)))` removes the entry of the first key
in insertion order, i.e. the head of the association list. -/
def readInsert (fs : FS) (cache : Cache) (filepath : List Char) (st : Stat) : GetResult :=
  match fs.read filepath with
  | none => ⟨none, cache, true⟩
  | some content =>
    if CACHE_ENABLED then
      let c1 := if CACHE_MAX_SIZE ≤ cache.length then cache.tail else cache
      ⟨some content, pdSet c1 filepath (content, st.mtime), true⟩
    else ⟨some content, cache, true⟩

/--
```python
def get_file_content(filepath):
    try:
        st = os.stat(filepath); mtime = st[8]
    except OSError:
        return None
    if CACHE_ENABLED and filepath in file_cache:
        cached_content, cached_mtime = file_cache[filepath]
        if cached_mtime == mtime:
            return cached_content
    try:
        with open(filepath, "rb") as f: content = f.read()
        if CACHE_ENABLED:
            if len(file_cache) >= CACHE_MAX_SIZE:
                file_cache.pop(next(iter(file_cache)))
            file_cache[filepath] = (content, mtime)
        return content
    except OSError:
        return None
```
-/
def get_file_content (fs : FS) (cache : Cache) (filepath : List Char) : GetResult :=
  match fs.stat filepath with
  | none => ⟨none, cache, false⟩
  | some st =>
    match (if CACHE_ENABLED then pdGet cache filepath else none) with
    | some (cc, cm) =>
      if cm = st.mtime then ⟨some cc, cache, false⟩
      else readInsert fs cache filepath st
    | none => readInsert fs cache filepath st

/-- After any call that returns bytes, the cache maps the path to exactly
those bytes together with the current mtime. -/
theorem get_file_content_caches (fs : FS) (cache : Cache) (p c : List Char) (st : Stat)
    (hstat : fs.stat p = some st)
    (h : (get_file_content fs cache p).content = some c) :
    pdGet (get_file_content fs cache p).cache p = some (c, st.mtime) := by
  unfold get_file_content at h ⊢
  rw [hstat] at h ⊢
  simp only [CACHE_ENABLED, if_true] at h ⊢
  cases hget : pdGet cache p with
  | some cv =>
    obtain ⟨cc, cm⟩ := cv
    simp only [hget] at h ⊢
    by_cases hcm : cm = st.mtime
    · simp only [if_pos hcm] at h ⊢
      cases h
      rw [hget, hcm]
    · simp only [if_neg hcm] at h ⊢
      unfold readInsert at h ⊢
      cases hread : fs.read p with
      | none =>
        simp only [hread] at h
        exact Option.noConfusion h
      | some content =>
        simp only [hread, CACHE_ENABLED, if_true] at h ⊢
        cases h
        exact pdGet_pdSet_self _ _ _
  | none =>
    simp only [hget] at h ⊢
    unfold readInsert at h ⊢
    cases hread : fs.read p with
    | none =>
      simp only [hread] at h
      exact Option.noConfusion h
    | some content =>
      simp only [hread, CACHE_ENABLED, if_true] at h ⊢
      cases h
      exact pdGet_pdSet_self _ _ _

/-- A call that finds a matching-mtime entry returns it, leaves the cache
alone and does not read. -/
theorem get_file_content_hit (fs : FS) (cache : Cache) (p c : List Char) (st : Stat)
    (hstat : fs.stat p = some st)
    (hget : pdGet cache p = some (c, st.mtime)) :
    get_file_content fs cache p = ⟨some c, cache, false⟩ := by
  unfold get_file_content
  rw [hstat]
  simp only [CACHE_ENABLED, if_true]
  rw [hget]
  simp

/-! ## Claim C1 — path resolver rejects parent-directory segments -/

/-- Claim C1: for every requested path containing a parent-directory segment
(`..` between separators, at any position and with any repetition), the path
resolver `safe_join` returns Rejected (`none`): the `..` characters survive
`strip("/")` and the join, so the substring check fires. -/
theorem safe_join_rejects_parent_segments (base : List Char) (paths : List (List Char))
    (p : List Char) (hp : p ∈ paths) (hseg : dotdot ∈ pySplitChar '/' p) :
    safe_join base paths = none := by
  have h1 : dotdot <:+: p := infix_of_mem_pySplitChar '/' p dotdot hseg
  have hc : '/' ∉ dotdot := by decide
  have hne : dotdot ≠ [] := by decide
  have h2 : dotdot <:+: pyStrip '/' p := infix_pyStrip_of_not_mem '/' dotdot p hc hne h1
  have h3 : pyStrip '/' p ∈ (pyStrip '/' base :: paths.map (pyStrip '/')) :=
    List.mem_cons_of_mem _ (List.mem_map_of_mem _ hp)
  have h4 : pyStrip '/' p <:+: pyJoin ['/'] (pyStrip '/' base :: paths.map (pyStrip '/')) :=
    infix_pyJoin_of_mem _ _ _ h3
  have h5 := infix_trans_list h2 h4
  unfold safe_join
  rw [if_pos h5]

/-- Witness for C1: the request path of the spec's traversal scenario is
rejected. -/
theorem safe_join_rejects_parent_segments_witness :
    safe_join PUBLIC_DIR ["../../etc/passwd".data] = none :=
  safe_join_rejects_parent_segments PUBLIC_DIR ["../../etc/passwd".data]
    "../../etc/passwd".data (by decide) (by decide)

/-! ## Claim C8 — full-cache insertion evicts the earliest-inserted entry -/

/-- Claim C8: when `get_file_content` reads a file while the cache already
holds `CACHE_MAX_SIZE` entries, exactly one entry is evicted before
insertion — the head of the insertion-ordered cache, i.e. the
earliest-inserted surviving entry (FIFO) — and every more recently inserted
entry is still present afterwards. -/
theorem cache_evicts_earliest_inserted (fs : FS) (cache : Cache) (p : List Char)
    (st : Stat) (content : List Char)
    (hstat : fs.stat p = some st)
    (hmiss : ∀ v ∈ pdGet cache p, v.2 ≠ st.mtime)
    (hread : fs.read p = some content)
    (hfull : CACHE_MAX_SIZE ≤ cache.length) :
    (get_file_content fs cache p).cache = pdSet cache.tail p (content, st.mtime) ∧
    ∀ k v, (k, v) ∈ cache.tail →
      (pdGet (get_file_content fs cache p).cache k).isSome = true := by
  have hmain : (get_file_content fs cache p).cache = pdSet cache.tail p (content, st.mtime) := by
    unfold get_file_content
    rw [hstat]
    simp only [CACHE_ENABLED, if_true]
    cases hget : pdGet cache p with
    | some cv =>
      obtain ⟨cc, cm⟩ := cv
      have hcm : cm ≠ st.mtime := by
        have := hmiss (cc, cm)
        simp [hget] at this
        exact this
      simp only [if_neg hcm]
      unfold readInsert
      rw [hread]
      simp only [CACHE_ENABLED, if_true, if_pos hfull]
    | none =>
      unfold readInsert
      rw [hread]
      simp only [CACHE_ENABLED, if_true, if_pos hfull]
  refine ⟨hmain, ?_⟩
  intro k v hkv
  rw [hmain]
  exact pdGet_pdSet_isSome _ _ _ _ (pdGet_isSome_of_mem _ _ v hkv)

/-- A 50-entry cache (at `CACHE_MAX_SIZE`), single-character keys, used in
the C8 witness. -/
def fullCache : Cache :=
  (List.range 50).map (fun n => ([Char.ofNat (65 + n)], ([], (0 : Int))))

/-- Filesystem with one regular file `public/w.txt` of content `xyz`,
mtime 7, used in the C8 witness. -/
def fsC8 : FS where
  stat := fun q => if q = "public/w.txt".data then some ⟨0x8000, 3, 7⟩ else none
  read := fun q => if q = "public/w.txt".data then some "xyz".data else none
  listdir := fun _ => none
  pathExists := fun _ => false

/-- Witness for C8: inserting a new path into the full 50-entry cache yields
exactly the cache with the head evicted and the new entry appended, and the
49 younger entries all survive. -/
theorem cache_evicts_earliest_inserted_witness :
    (get_file_content fsC8 fullCache "public/w.txt".data).cache =
      pdSet fullCache.tail "public/w.txt".data ("xyz".data, 7) ∧
    ∀ k v, (k, v) ∈ fullCache.tail →
      (pdGet (get_file_content fsC8 fullCache "public/w.txt".data).cache k).isSome = true :=
  cache_evicts_earliest_inserted fsC8 fullCache "public/w.txt".data ⟨0x8000, 3, 7⟩ "xyz".data
    (by decide)
    (by
      intro v hv
      rw [show pdGet fullCache "public/w.txt".data = none from by decide] at hv
      simp at hv)
    (by decide)
    (by decide)

/-! ## Claim C9 — unchanged mtime: second read is served from cache -/

/-- Claim C9: if a `get_file_content` call returns bytes and the file's
modification marker is unchanged (same filesystem state), the next call for
the same path returns byte-identical content, performs no filesystem content
read (only the stat), and leaves the cache unchanged. -/
theorem cache_second_get_no_read (fs : FS) (cache : Cache) (p c : List Char)
    (h : (get_file_content fs cache p).content = some c) :
    (get_file_content fs (get_file_content fs cache p).cache p).content = some c ∧
    (get_file_content fs (get_file_content fs cache p).cache p).didRead = false ∧
    (get_file_content fs (get_file_content fs cache p).cache p).cache =
      (get_file_content fs cache p).cache := by
  have hst : ∃ st, fs.stat p = some st := by
    unfold get_file_content at h
    cases hstat : fs.stat p with
    | none => rw [hstat] at h; exact Option.noConfusion h
    | some st => exact ⟨st, rfl⟩
  obtain ⟨st, hstat⟩ := hst
  have hc1 := get_file_content_caches fs cache p c st hstat h
  have h2 := get_file_content_hit fs (get_file_content fs cache p).cache p c st hstat hc1
  rw [h2]
  exact ⟨rfl, rfl, rfl⟩

/-- Filesystem with one regular file `public/r.txt` of content `xyz`,
mtime 7, used in the C9 witness. -/
def fsC9 : FS where
  stat := fun q => if q = "public/r.txt".data then some ⟨0x8000, 3, 7⟩ else none
  read := fun q => if q = "public/r.txt".data then some "xyz".data else none
  listdir := fun _ => none
  pathExists := fun _ => false

/-- Witness for C9: after a first (miss) read of `public/r.txt`, the second
call returns the same bytes with no content read and an unchanged cache. -/
theorem cache_second_get_no_read_witness :
    (get_file_content fsC9 (get_file_content fsC9 [] "public/r.txt".data).cache
        "public/r.txt".data).content = some "xyz".data ∧
    (get_file_content fsC9 (get_file_content fsC9 [] "public/r.txt".data).cache
        "public/r.txt".data).didRead = false ∧
    (get_file_content fsC9 (get_file_content fsC9 [] "public/r.txt".data).cache
        "public/r.txt".data).cache = (get_file_content fsC9 [] "public/r.txt".data).cache :=
  cache_second_get_no_read fsC9 [] "public/r.txt".data "xyz".data (by decide)

/-! ## Gemini retrieval handler (`handle_gemini_client`, lines 169–246) -/

/-- `ENABLE_DIR_LISTING = True`. -/
def ENABLE_DIR_LISTING : Bool := true

/-- The static `MIME_TYPES` extension table, in source order. -/
def MIME_TYPES : List (List Char × List Char) :=
  [(".gmi".data, "text/gemini".data),
   (".txt".data, "text/plain".data),
   (".html".data, "text/html".data),
   (".css".data, "text/css".data),
   (".js".data, "application/javascript".data),
   (".png".data, "image/png".data),
   (".jpg".data, "image/jpeg".data),
   (".jpeg".data, "image/jpeg".data),
   (".gif".data, "image/gif".data),
   (".pdf".data, "application/pdf".data)]

/-- `get_mime_type`: first extension the filename ends with, else
`application/octet-stream`. -/
def get_mime_type (filename : List Char) : List Char :=
  go MIME_TYPES
where
  go : List (List Char × List Char) → List Char
  | [] => "application/octet-stream".data
  | (ext, mime) :: rest => if ext <:+ filename then mime else go rest

/-- Request normalization of `handle_gemini_client`: strip a
`gemini://authority` to the path after the authority (root when absent),
then substitute the default document for `/`. -/
def normalizeRequest (request : List Char) : List Char :=
  let r1 :=
    if listStartsWith "gemini://".data request then
      match pyFindCharFrom request '/' 9 with
      | some i => request.drop i
      | none => "/".data
    else request
  if r1 = "/".data then "/index.gmi".data else r1

/-- One line of the directory listing. `none` models the `TypeError` raised
by `os.stat(None)` when `safe_join` rejects an entry name containing `..` —
it is not an `OSError`, so it escapes the inner handler and aborts the whole
listing (caught by the surrounding bare `except`). A plain stat `OSError` is
passed over (no trailing slash). -/
def dirEntryLine (fs : FS) (request filepath entry : List Char) : Option (List Char) :=
  let ep := pyRStrip '/' request ++ ['/'] ++ entry
  match safe_join filepath [entry] with
  | none => none
  | some full_entry =>
    let ep :=
      match fs.stat full_entry with
      | some st => if statIsDir st then ep ++ ['/'] else ep
      | none => ep
    some ("=> ".data ++ ep ++ [' '] ++ entry)

/-- Lexicographic (code-point) order on strings, as used by Python `sorted`. -/
def lexLe : List Char → List Char → Bool
  | [], _ => true
  | _ :: _, [] => false
  | x :: xs, y :: ys => if x = y then lexLe xs ys else decide (x < y)

/-- Insertion step for `sortLex`. -/
def insSorted (x : List Char) : List (List Char) → List (List Char)
  | [] => [x]
  | y :: ys => if lexLe x y then x :: y :: ys else y :: insSorted x ys

/-- `sorted(...)` on a list of strings. -/
def sortLex (l : List (List Char)) : List (List Char) :=
  l.foldr insSorted []

/-- The directory-listing body: `none` models any exception inside the
listing loop (answered with `51 Not Found` by the bare `except`). -/
def dirLines (fs : FS) (request filepath : List Char) : Option (List (List Char)) :=
  match fs.listdir filepath with
  | none => none
  | some entries => (sortLex entries).mapM (dirEntryLine fs request filepath)

/-- What the handler wrote, what it logged, and whether it died with an
uncaught exception (in which case nothing was written and nothing logged). -/
structure HandlerResult where
  writes : List (List Char)
  status : Option (List Char)
  crashed : Bool
deriving DecidableEq

/-- The `is_dir` branch of the response dispatch. -/
def handleDir (fs : FS) (cache : Cache) (request filepath : List Char) :
    HandlerResult × Cache :=
  if ENABLE_DIR_LISTING then
    match dirLines fs request filepath with
    | some lines =>
      (⟨["20 text/gemini\r\n".data, pyJoin ['\n'] lines],
        some "20 Directory Listing".data, false⟩, cache)
    | none => (⟨["51 Not Found\r\n".data], some "51 Not Found".data, false⟩, cache)
  else (⟨["51 Not Found\r\n".data], some "51 Not Found".data, false⟩, cache)

/-- The `is_file` branch: fetch through the cache; `if content:` treats both
`None` and empty bytes as falsy, answering `51 Not Found`. -/
def handleFile (fs : FS) (cache : Cache) (filepath : List Char) :
    HandlerResult × Cache :=
  let r := get_file_content fs cache filepath
  if pyTruthyStr r.content then
    (⟨["20 ".data ++ get_mime_type filepath ++ "\r\n".data, r.content.getD []],
      some ("20 ".data ++ get_mime_type filepath), false⟩, r.cache)
  else (⟨["51 Not Found\r\n".data], some "51 Not Found".data, false⟩, r.cache)

/-- The `51 Not Found` answer shared by the absent/dir-disabled/empty paths. -/
def notFound51 (cache : Cache) : HandlerResult × Cache :=
  (⟨["51 Not Found\r\n".data], some "51 Not Found".data, false⟩, cache)

/-- Stat the resolved path and dispatch. A stat `OSError` leaves both flags
false, so the request falls through to `51 Not Found`. -/
def handleStat (fs : FS) (cache : Cache) (request filepath : List Char) :
    HandlerResult × Cache :=
  match fs.stat filepath with
  | some st =>
    if statIsDir st then handleDir fs cache request filepath
    else if statIsFile st then handleFile fs cache filepath
    else notFound51 cache
  | none => notFound51 cache

/--
`handle_gemini_client`, response computation (telemetry and I/O omitted):
decode+strip the request line, normalize, resolve with `safe_join`, stat,
dispatch, log. When `safe_join` returns `None`, the handler calls
`os.stat(None)`, which raises `TypeError` — the `except OSError:` around the
stat does not catch it, so the coroutine dies having written nothing
(`crashed := true`). Note the code contains no `59` status at all. -/
def handle_request (fs : FS) (cache : Cache) (raw : List Char) : HandlerResult × Cache :=
  match safe_join PUBLIC_DIR [pyLStrip '/' (normalizeRequest (pyStripWS raw))] with
  | none => (⟨[], none, true⟩, cache)
  | some filepath => handleStat fs cache (normalizeRequest (pyStripWS raw)) filepath

/-! ## Claim C2 — response to a rejected (traversal) request -/

/-- Claim C2 (refuted — code bug): for the request line `/../../etc/passwd`
the handler does NOT emit `59 Bad Request`; `safe_join` yields `None`,
`os.stat(None)` raises an uncaught `TypeError`, and the connection dies with
no status line written at all, for every filesystem and cache state. -/
theorem gemini_traversal_no_status_line (fs : FS) (cache : Cache) :
    (handle_request fs cache "/../../etc/passwd".data).1.writes = [] ∧
    (handle_request fs cache "/../../etc/passwd".data).1.status = none ∧
    (handle_request fs cache "/../../etc/passwd".data).1.crashed = true := by
  have hsj : safe_join PUBLIC_DIR
      [pyLStrip '/' (normalizeRequest (pyStripWS "/../../etc/passwd".data))] = none := by
    decide
  unfold handle_request
  rw [hsj]
  exact ⟨rfl, rfl, rfl⟩

/-! ## Claim C10 — zero-byte regular file answered with `51` -/

/-- Claim C10: a request resolving to an existing, readable, zero-byte
regular file is answered with `51 Not Found` (and logged as such), not with
a `20` success and empty body, because `if content:` is false for empty
bytes. -/
theorem zero_byte_file_not_found (fs : FS) (cache : Cache) (raw fp : List Char) (st : Stat)
    (hfp : safe_join PUBLIC_DIR [pyLStrip '/' (normalizeRequest (pyStripWS raw))] = some fp)
    (hstat : fs.stat fp = some st)
    (hdir : statIsDir st = false)
    (hfile : statIsFile st = true)
    (hget : (get_file_content fs cache fp).content = some []) :
    (handle_request fs cache raw).1.writes = ["51 Not Found\r\n".data] ∧
    (handle_request fs cache raw).1.status = some "51 Not Found".data ∧
    (handle_request fs cache raw).1.crashed = false := by
  unfold handle_request
  rw [hfp]
  dsimp only
  unfold handleStat
  rw [hstat]
  dsimp only
  rw [hdir, hfile]
  simp only [Bool.false_eq_true, if_false, if_true]
  unfold handleFile
  dsimp only
  rw [hget]
  simp only [pyTruthyStr, List.isEmpty_nil, Bool.not_true, Bool.false_eq_true, if_false]
  exact ⟨trivial, trivial, trivial⟩

/-- Filesystem with one empty regular file `public/e.txt`, used in the C10
witness. -/
def fsC10 : FS where
  stat := fun q => if q = "public/e.txt".data then some ⟨0x8000, 0, 3⟩ else none
  read := fun q => if q = "public/e.txt".data then some [] else none
  listdir := fun _ => none
  pathExists := fun _ => false

/-- Witness for C10: requesting `/e.txt`, a zero-byte file, is answered with
`51 Not Found` and no body. -/
theorem zero_byte_file_not_found_witness :
    (handle_request fsC10 [] "/e.txt".data).1.writes = ["51 Not Found\r\n".data] ∧
    (handle_request fsC10 [] "/e.txt".data).1.status = some "51 Not Found".data ∧
    (handle_request fsC10 [] "/e.txt".data).1.crashed = false :=
  zero_byte_file_not_found fsC10 [] "/e.txt".data "public/e.txt".data ⟨0x8000, 0, 3⟩
    (by decide) (by decide) (by decide) (by decide) (by decide)

/-! ## Transfer session handler (`handle_file_client`, lines 251–353) -/

/-- An `UploadSession`: chunk sequence number ↦ chunk bytes (keys are the
parsed integers, which the code never range-checks), plus the declared total
from the `UPLOAD` line. -/
structure Session where
  chunks : PyDict Int (List Char)
  total : Int
deriving DecidableEq

/-- Connection-handler state: the per-connection `client_files` dict
(filename ↦ session, insertion-ordered), files written to disk, files
removed, and response lines sent, each in order. -/
structure TState where
  files : PyDict (List Char) Session
  written : List (List Char × List Char)
  removed : List (List Char)
  responses : List (List Char)
deriving DecidableEq

/-- Result of processing one command line: `ok` continues the loop, `err`
models an exception that escapes to the outer `except Exception` and ends
the session (the state reached so far is kept — `client_files` is an alias
into the global `client_uploads`). -/
inductive StepRes where
  | ok (st : TState)
  | err (st : TState)
deriving DecidableEq

/-- The state carried by either outcome. -/
def StepRes.state : StepRes → TState
  | .ok st => st
  | .err st => st

/-- The `END` write loop: `for i in range(total): f.write(chunks.get(i, b""))`
— only indices `0..total-1` are consulted, missing ones contribute empty
bytes, out-of-range entries are ignored. -/
def assembleFile (s : Session) : List Char :=
  ((List.range s.total.toNat).map (fun i => (pdGet s.chunks (Int.ofNat i)).getD [])).foldr
    (· ++ ·) []

/-- The `SEQ` store: `client_files[list(client_files.keys())[-1]]["chunks"][k] = d`
when `client_files` is nonempty, else the chunk is silently dropped. -/
def applySeq (files : PyDict (List Char) Session) (k : Int) (d : List Char) :
    PyDict (List Char) Session :=
  match pdLastKey files with
  | none => files
  | some g =>
    match pdGet files g with
    | some s => pdSet files g { s with chunks := pdSet s.chunks k d }
    | none => files

/-- `f"{size}B"`. -/
def fmtSize (n : Nat) : List Char :=
  (toString n).data ++ ['B']

/-- One line of a `LIST` response: `<DIR> name`, `<size>B name`, or
`??? name` on a per-entry stat failure; an entry whose name makes
`safe_join` reject (or resolve to an empty string) is silently skipped
(`continue`). -/
def listEntryLine (fs : FS) (dirPath entry : List Char) : Option (List Char) :=
  match safe_join dirPath [entry] with
  | none => none
  | some full_path =>
    if full_path = [] then none
    else
      match fs.stat full_path with
      | some st =>
        some ((if statIsDir st then "<DIR>".data
               else fmtSize (if statIsFile st then st.size else 0)) ++ [' '] ++ entry)
      | none => some ("??? ".data ++ entry)

/-- The `LIST` command. Never raises: all failure paths answer with an
`ERROR ...` line and the session continues. -/
def handleList (fs : FS) (st : TState) (line : List Char) : TState :=
  let subdir := match pySplitWS1 line with
    | [_, s] => s
    | _ => []
  match safe_join PUBLIC_DIR [subdir] with
  | none => { st with responses := st.responses ++ ["ERROR Directory not found\n".data] }
  | some dir_path =>
    if dir_path = [] || !fs.pathExists dir_path then
      { st with responses := st.responses ++ ["ERROR Directory not found\n".data] }
    else
      match fs.listdir dir_path with
      | none => { st with responses := st.responses ++ ["ERROR Cannot read directory\n".data] }
      | some entries =>
        { st with responses := st.responses ++
            [pyJoin ['\n'] ((sortLex entries).filterMap (listEntryLine fs dir_path)) ++
              "\n".data] }

/-- Process one received line of the transfer protocol, after
`line.decode().strip()`:
* `LIST…` answers with a listing or an error line;
* `UPLOAD <name> <count>` opens a session, but a line that does not split
  into exactly three fields, or whose count is not an integer, raises
  `ValueError` (`err`);
* `END <name>` writes the assembled file and pops the session if it exists;
* `DELETE <name>` removes the file or answers an error line;
* `SEQ<k>|<data>` stores a chunk in the last-announced session (a missing
  `|` is ignored; a non-integer index raises, `err`);
* anything else is silently ignored. -/
def stepLine (fs : FS) (st : TState) (raw : List Char) : StepRes :=
  let line := pyStripWS raw
  if listStartsWith "LIST".data line then .ok (handleList fs st line)
  else if listStartsWith "UPLOAD ".data line then
    match pySplitWS line with
    | [_, filename, tc] =>
      match pyInt tc with
      | some n => .ok { st with files := pdSet st.files filename ⟨[], n⟩ }
      | none => .err st
    | _ => .err st
  else if listStartsWith "END ".data line then
    match pdGet st.files (line.drop 4) with
    | none => .ok st
    | some info =>
      match safe_join PUBLIC_DIR [line.drop 4] with
      | none => .ok { st with files := pdPop st.files (line.drop 4) }
      | some sp =>
        if sp = [] then .ok { st with files := pdPop st.files (line.drop 4) }
        else .ok { st with
          files := pdPop st.files (line.drop 4)
          written := st.written ++ [(sp, assembleFile info)]
          responses := st.responses ++
            ["OK UPLOAD ".data ++ line.drop 4 ++ "\n".data] }
  else if listStartsWith "DELETE ".data line then
    match safe_join PUBLIC_DIR [pyStripWS (line.drop 7)] with
    | none => .ok { st with responses := st.responses ++
        ["ERROR ".data ++ pyStripWS (line.drop 7) ++ " not found\n".data] }
    | some fp =>
      if !fp.isEmpty && fs.pathExists fp then
        .ok { st with
          removed := st.removed ++ [fp]
          responses := st.responses ++
            ["DELETED ".data ++ pyStripWS (line.drop 7) ++ "\n".data] }
      else .ok { st with responses := st.responses ++
        ["ERROR ".data ++ pyStripWS (line.drop 7) ++ " not found\n".data] }
  else if listStartsWith "SEQ".data line then
    match pyFindChar line '|' with
    | none => .ok st
    | some sep =>
      match pyInt ((line.drop 3).take (sep - 3)) with
      | none => .err st
      | some k => .ok { st with files := applySeq st.files k (line.drop (sep + 1)) }
  else .ok st

/-- The command loop: process lines in arrival order; an empty raw line
(`readline` returned `b""`: peer closed) stops the loop normally; an `err`
outcome stops it abnormally (the `Bool` is `true`) and later lines are never
processed. -/
def runLines (fs : FS) (st : TState) : List (List Char) → TState × Bool
  | [] => (st, false)
  | raw :: rest =>
    if raw = [] then (st, false)
    else
      match stepLine fs st raw with
      | .ok s => runLines fs s rest
      | .err s => (s, true)

/-- The global `client_uploads` dict: peer address ↦ that connection's
`client_files`. Addresses are abstracted as `Nat`. -/
abbrev Uploads := PyDict Nat (PyDict (List Char) Session)

/-- Everything observable from one transfer connection: the global
`client_uploads` after the handler's `finally` ran, the disk writes,
removals and responses made, and whether the session ended in the
`except Exception` handler. -/
structure ConnResult where
  uploads : Uploads
  written : List (List Char × List Char)
  removed : List (List Char)
  responses : List (List Char)
  errored : Bool
deriving DecidableEq

/-- One whole transfer connection. `client_files` starts as the (possibly
inherited) entry for the address, and because it aliases
`client_uploads[addr]`, the final file map is what the global dict holds
after the connection closes — the `finally` block closes the socket but
never deletes the entry. -/
def handle_file_client (fs : FS) (uploads : Uploads) (addr : Nat)
    (lines : List (List Char)) : ConnResult :=
  let uploads0 := if (pdGet uploads addr).isSome then uploads else pdSet uploads addr []
  let files0 := (pdGet uploads0 addr).getD []
  let r := runLines fs ⟨files0, [], [], []⟩ lines
  ⟨pdSet uploads0 addr r.1.files, r.1.written, r.1.removed, r.1.responses, r.2⟩

/-- A filesystem on which every operation fails; the upload-path commands
(`UPLOAD`/`SEQ`/`END`) never consult the filesystem. -/
def emptyFS : FS where
  stat := fun _ => none
  read := fun _ => none
  listdir := fun _ => none
  pathExists := fun _ => false

/-! ## Handler-step invariants used by the claims -/

/-- `LIST` only appends responses: the disk-write log is untouched. -/
theorem handleList_written (fs : FS) (st : TState) (line : List Char) :
    (handleList fs st line).written = st.written := by
  unfold handleList
  dsimp only
  repeat' split
  all_goals rfl

/-- Any line that is not an `END ` command leaves the disk-write log
untouched, whether it is processed, ignored, or raises. -/
theorem stepLine_written_of_not_end (fs : FS) (st : TState) (raw : List Char)
    (h : listStartsWith "END ".data (pyStripWS raw) = false) :
    ((stepLine fs st raw).state).written = st.written := by
  have hEnd : ¬ (listStartsWith "END ".data (pyStripWS raw) = true) := by simp [h]
  unfold stepLine
  by_cases h1 : listStartsWith "LIST".data (pyStripWS raw) = true
  · rw [if_pos h1]
    exact handleList_written fs st (pyStripWS raw)
  · rw [if_neg h1]
    by_cases h2 : listStartsWith "UPLOAD ".data (pyStripWS raw) = true
    · rw [if_pos h2]
      repeat' split
      all_goals rfl
    · rw [if_neg h2, if_neg hEnd]
      by_cases h4 : listStartsWith "DELETE ".data (pyStripWS raw) = true
      · rw [if_pos h4]
        repeat' split
        all_goals rfl
      · rw [if_neg h4]
        by_cases h5 : listStartsWith "SEQ".data (pyStripWS raw) = true
        · rw [if_pos h5]
          repeat' split
          all_goals rfl
        · rw [if_neg h5]
          rfl

/-- Over a whole session containing no `END ` line, nothing is ever written
to disk. -/
theorem runLines_written_of_no_end (fs : FS) (lines : List (List Char)) :
    ∀ st : TState, (∀ l ∈ lines, listStartsWith "END ".data (pyStripWS l) = false) →
      (runLines fs st lines).1.written = st.written := by
  induction lines with
  | nil => intro st _; rfl
  | cons raw rest ih =>
    intro st h
    unfold runLines
    by_cases hr : raw = []
    · rw [if_pos hr]
    · rw [if_neg hr]
      have hstep := stepLine_written_of_not_end fs st raw (h raw (List.mem_cons_self _ _))
      cases hs : stepLine fs st raw with
      | ok s =>
        rw [hs] at hstep
        dsimp only
        rw [ih s (fun l hl => h l (List.mem_cons_of_mem _ hl))]
        exact hstep
      | err s =>
        rw [hs] at hstep
        exact hstep

/-! ## Claim C3 — chunk reassembly and the spec's upload scenario -/

/-- The spec's upload scenario, as raw received lines (before the handler's
`decode().strip()`). -/
def scenarioC3 : List (List Char) :=
  ["UPLOAD f.txt 2\n".data, "SEQ1|World\n".data, "SEQ0|Hello \n".data, "END f.txt\n".data]

/-- Claim C3 (refuted — code bug): the spec scenario `UPLOAD f.txt 2`,
`SEQ1|World`, `SEQ0|Hello `, `END f.txt` does NOT reproduce `Hello World`:
the handler's `line.decode().strip()` removes the chunk's trailing space
together with the line terminator, so the file written is `HelloWorld` —
reassembly is not byte-identical for chunks with leading/trailing
whitespace. -/
theorem upload_scenario_drops_trailing_space :
    (handle_file_client emptyFS [] 0 scenarioC3).written =
      [("public/f.txt".data, "HelloWorld".data)] ∧
    "HelloWorld".data ≠ "Hello World".data := by
  constructor
  · decide
  · decide

/-! ## Claim C4 — UploadSession lifetime at connection close -/

/-- Claim C4 (refuted): a partially-built UploadSession survives the close of
its connection. After a connection that uploads two chunks and disconnects
without `END`, the global `client_uploads` still maps the peer address to the
fully populated session — the handler's `finally` never deletes it. -/
theorem upload_state_survives_close :
    pdGet (handle_file_client emptyFS [] 0
        ["UPLOAD f.txt 2\n".data, "SEQ0|Hi\n".data]).uploads 0 =
      some [("f.txt".data, ⟨[((0 : Int), "Hi".data)], 2⟩)] ∧
    some [("f.txt".data, (⟨[((0 : Int), "Hi".data)], 2⟩ : Session))] ≠
      some ([] : PyDict (List Char) Session) := by
  constructor
  · decide
  · decide

/-- Claim C4, amended: a connection that sees no `END ` command never flushes
anything to disk, but its UploadSession state is NOT discarded on connection
close — the global `client_uploads` retains an entry for the address. -/
theorem upload_state_retained_never_flushed (fs : FS) (uploads : Uploads) (addr : Nat)
    (lines : List (List Char))
    (h : ∀ l ∈ lines, listStartsWith "END ".data (pyStripWS l) = false) :
    (handle_file_client fs uploads addr lines).written = [] ∧
    ∃ d, pdGet (handle_file_client fs uploads addr lines).uploads addr = some d := by
  unfold handle_file_client
  refine ⟨?_, ?_⟩
  · exact runLines_written_of_no_end fs lines _ h
  · exact ⟨_, pdGet_pdSet_self _ _ _⟩

/-- Witness for the amended C4: the two-line aborted upload writes nothing
and leaves a session behind. -/
theorem upload_state_retained_never_flushed_witness :
    (handle_file_client emptyFS [] 1 ["UPLOAD g.txt 3\n".data, "SEQ0|Hi\n".data]).written = [] ∧
    ∃ d, pdGet (handle_file_client emptyFS [] 1
        ["UPLOAD g.txt 3\n".data, "SEQ0|Hi\n".data]).uploads 1 = some d :=
  upload_state_retained_never_flushed emptyFS [] 1
    ["UPLOAD g.txt 3\n".data, "SEQ0|Hi\n".data] (by decide)

/-! ## Claim C5 — malformed command lines -/

/-- Claim C5 (refuted): a malformed `UPLOAD` line (here: non-numeric count)
is not ignored — the `ValueError` escapes to the outer `except`, the session
terminates, and the three well-formed commands after it (a complete upload of
`b.txt`) are never processed: nothing is written, no response is sent. -/
theorem malformed_upload_ends_session :
    (handle_file_client emptyFS [] 0
        ["UPLOAD a.txt x\n".data, "UPLOAD b.txt 1\n".data,
         "SEQ0|Q\n".data, "END b.txt\n".data]).errored = true ∧
    (handle_file_client emptyFS [] 0
        ["UPLOAD a.txt x\n".data, "UPLOAD b.txt 1\n".data,
         "SEQ0|Q\n".data, "END b.txt\n".data]).written = [] ∧
    (handle_file_client emptyFS [] 0
        ["UPLOAD a.txt x\n".data, "UPLOAD b.txt 1\n".data,
         "SEQ0|Q\n".data, "END b.txt\n".data]).responses = [] := by
  refine ⟨?_, ?_, ?_⟩ <;> decide

/-- Claim C5, amended: a line matching none of the five command patterns is
ignored with no response and no state change, and the session goes on with
the remaining lines; but malformed `UPLOAD`/`SEQ` lines raise and end the
session. -/
theorem unrecognized_line_ignored (fs : FS) (st : TState) (raw : List Char)
    (rest : List (List Char))
    (hL : listStartsWith "LIST".data (pyStripWS raw) = false)
    (hU : listStartsWith "UPLOAD ".data (pyStripWS raw) = false)
    (hE : listStartsWith "END ".data (pyStripWS raw) = false)
    (hD : listStartsWith "DELETE ".data (pyStripWS raw) = false)
    (hS : listStartsWith "SEQ".data (pyStripWS raw) = false)
    (hne : raw ≠ []) :
    stepLine fs st raw = .ok st ∧
    runLines fs st (raw :: rest) = runLines fs st rest := by
  have hstep : stepLine fs st raw = .ok st := by
    unfold stepLine
    rw [if_neg (by simp [hL]), if_neg (by simp [hU]), if_neg (by simp [hE]),
      if_neg (by simp [hD]), if_neg (by simp [hS])]
  refine ⟨hstep, ?_⟩
  have h0 : runLines fs st (raw :: rest) =
      if raw = [] then (st, false)
      else
        match stepLine fs st raw with
        | .ok s => runLines fs s rest
        | .err s => (s, true) := rfl
  rw [h0, if_neg hne, hstep]

/-- Witness for the amended C5: the unknown command `HELLO world` is skipped
and the session continues with the next line. -/
theorem unrecognized_line_ignored_witness :
    stepLine emptyFS ⟨[], [], [], []⟩ "HELLO world\n".data = .ok ⟨[], [], [], []⟩ ∧
    runLines emptyFS ⟨[], [], [], []⟩ ["HELLO world\n".data, "UPLOAD h.txt 1\n".data] =
      runLines emptyFS ⟨[], [], [], []⟩ ["UPLOAD h.txt 1\n".data] :=
  unrecognized_line_ignored emptyFS ⟨[], [], [], []⟩ "HELLO world\n".data
    ["UPLOAD h.txt 1\n".data]
    (by decide) (by decide) (by decide) (by decide) (by decide) (by decide)

/-! ## Claim C6 — how many UploadSessions are active, and which one SEQ hits -/

/-- Claim C6 (refuted): `client_files` is keyed by filename, so after
`UPLOAD a 1`, `UPLOAD b 1`, `UPLOAD a 2`, `SEQ0|X` the connection holds TWO
live sessions; re-announcing `a` did not replace `b`, and the `SEQ` chunk
landed in `b` (the last key in insertion order), not in the most recently
announced `a`. -/
theorem upload_sessions_accumulate :
    (runLines emptyFS ⟨[], [], [], []⟩
        ["UPLOAD a 1\n".data, "UPLOAD b 1\n".data,
         "UPLOAD a 2\n".data, "SEQ0|X\n".data]).1.files =
      [("a".data, ⟨[], 2⟩), ("b".data, ⟨[((0 : Int), "X".data)], 1⟩)] ∧
    ([("a".data, (⟨[], 2⟩ : Session)), ("b".data, ⟨[((0 : Int), "X".data)], 1⟩)] :
      PyDict (List Char) Session).length = 2 ∧
    pdGet [("a".data, (⟨[], 2⟩ : Session)), ("b".data, ⟨[((0 : Int), "X".data)], 1⟩)]
      "a".data = some ⟨[], 2⟩ := by
  refine ⟨?_, ?_, ?_⟩ <;> decide

/-- Claim C6, amended: an `UPLOAD` for name `f` replaces only a prior session
with the same name, keeping its position; sessions for every other name
survive; and when `f` was already announced and some other name `g` sits last
in insertion order, a following `SEQ` chunk is stored in `g`'s session — the
most recently *first*-announced name — not in `f`'s. -/
theorem upload_replaces_only_same_name (fs : FS) (st : TState)
    (rawU w f t : List Char) (n : Int) (g : List Char) (s : Session) (k : Int)
    (d : List Char)
    (hL : listStartsWith "LIST".data (pyStripWS rawU) = false)
    (hU : listStartsWith "UPLOAD ".data (pyStripWS rawU) = true)
    (hsp : pySplitWS (pyStripWS rawU) = [w, f, t])
    (hint : pyInt t = some n)
    (hmem : f ∈ st.files.map Prod.fst)
    (hlast : pdLastKey st.files = some g)
    (hgf : g ≠ f)
    (hg : pdGet st.files g = some s) :
    stepLine fs st rawU = .ok { st with files := pdSet st.files f ⟨[], n⟩ } ∧
    (∀ f', f' ≠ f → pdGet (pdSet st.files f ⟨[], n⟩) f' = pdGet st.files f') ∧
    pdLastKey (pdSet st.files f ⟨[], n⟩) = some g ∧
    applySeq (pdSet st.files f ⟨[], n⟩) k d =
      pdSet (pdSet st.files f ⟨[], n⟩) g { s with chunks := pdSet s.chunks k d } := by
  have hkeys : (pdSet st.files f ⟨[], n⟩).map Prod.fst = st.files.map Prod.fst :=
    pdSet_map_fst_of_mem st.files f ⟨[], n⟩ hmem
  have hlast2 : pdLastKey (pdSet st.files f ⟨[], n⟩) = some g := by
    unfold pdLastKey at hlast ⊢
    rw [hkeys]
    exact hlast
  refine ⟨?_, ?_, hlast2, ?_⟩
  · unfold stepLine
    rw [if_neg (by simp [hL]), if_pos hU, hsp]
    dsimp only
    rw [hint]
  · intro f' hne
    exact pdGet_pdSet_ne st.files f f' ⟨[], n⟩ hne
  · unfold applySeq
    rw [hlast2]
    dsimp only
    rw [pdGet_pdSet_ne st.files f g ⟨[], n⟩ hgf, hg]

/-- Witness for the amended C6: with sessions `a` then `b` open and
`UPLOAD a 2` re-announced, the chunk `SEQ` would store into `b`. -/
theorem upload_replaces_only_same_name_witness :
    stepLine emptyFS ⟨[("a".data, ⟨[], 1⟩), ("b".data, ⟨[], 1⟩)], [], [], []⟩
        "UPLOAD a 2\n".data =
      .ok { files := pdSet [("a".data, ⟨[], 1⟩), ("b".data, ⟨[], 1⟩)] "a".data ⟨[], 2⟩,
            written := [], removed := [], responses := [] } ∧
    (∀ f', f' ≠ "a".data →
      pdGet (pdSet [("a".data, (⟨[], 1⟩ : Session)), ("b".data, ⟨[], 1⟩)] "a".data ⟨[], 2⟩) f' =
        pdGet [("a".data, (⟨[], 1⟩ : Session)), ("b".data, ⟨[], 1⟩)] f') ∧
    pdLastKey (pdSet [("a".data, (⟨[], 1⟩ : Session)), ("b".data, ⟨[], 1⟩)] "a".data ⟨[], 2⟩) =
      some "b".data ∧
    applySeq (pdSet [("a".data, (⟨[], 1⟩ : Session)), ("b".data, ⟨[], 1⟩)] "a".data ⟨[], 2⟩)
        0 "X".data =
      pdSet (pdSet [("a".data, (⟨[], 1⟩ : Session)), ("b".data, ⟨[], 1⟩)] "a".data ⟨[], 2⟩)
        "b".data ⟨pdSet ([] : PyDict Int (List Char)) 0 "X".data, 1⟩ :=
  upload_replaces_only_same_name emptyFS ⟨[("a".data, ⟨[], 1⟩), ("b".data, ⟨[], 1⟩)], [], [], []⟩
    "UPLOAD a 2\n".data "UPLOAD".data "a".data "2".data 2 "b".data ⟨[], 1⟩ 0 "X".data
    (by decide) (by decide) (by decide) (by decide) (by decide) (by decide) (by decide)
    (by decide)

/-! ## Claim C7 — chunk-map index range -/

/-- Claim C7 (refuted): `SEQ` indices are stored without any range check —
after `UPLOAD f.txt 2` the chunk map accepts index `5` and index `-1`, both
outside `0 ≤ i < 2`. -/
theorem seq_out_of_range_stored :
    pdGet (runLines emptyFS ⟨[], [], [], []⟩
        ["UPLOAD f.txt 2\n".data, "SEQ5|X\n".data, "SEQ-1|Y\n".data]).1.files
      "f.txt".data =
      some ⟨[((5 : Int), "X".data), ((-1 : Int), "Y".data)], 2⟩ ∧
    ¬ ((0 : Int) ≤ 5 ∧ (5 : Int) < 2) ∧ ¬ ((0 : Int) ≤ -1 ∧ (-1 : Int) < 2) := by
  refine ⟨?_, ?_, ?_⟩ <;> decide

/-- Claim C7, amended: the chunk map is unconstrained, but only indices
`0 ≤ i < total` are consulted when `END` assembles the file — two sessions
with the same declared total and identical in-range chunks produce the same
file bytes, whatever out-of-range entries either one holds. -/
theorem assembleFile_ignores_out_of_range (s s' : Session)
    (htot : s.total = s'.total)
    (hin : ∀ i : Nat, i < s.total.toNat →
      pdGet s.chunks (Int.ofNat i) = pdGet s'.chunks (Int.ofNat i)) :
    assembleFile s = assembleFile s' := by
  unfold assembleFile
  have hr : List.range s'.total.toNat = List.range s.total.toNat := by rw [htot]
  rw [hr]
  have hm : (List.range s.total.toNat).map
      (fun i => (pdGet s.chunks (Int.ofNat i)).getD []) =
      (List.range s.total.toNat).map
      (fun i => (pdGet s'.chunks (Int.ofNat i)).getD []) := by
    rw [List.map_eq_map_iff]
    intro i hi
    rw [hin i (List.mem_range.mp hi)]
  rw [hm]

/-- Witness for the amended C7: a session with a stray out-of-range chunk at
index 5 assembles the same file as the session without it. -/
theorem assembleFile_ignores_out_of_range_witness :
    assembleFile ⟨[((0 : Int), "A".data), ((5 : Int), "X".data)], 1⟩ =
      assembleFile ⟨[((0 : Int), "A".data)], 1⟩ :=
  assembleFile_ignores_out_of_range
    ⟨[((0 : Int), "A".data), ((5 : Int), "X".data)], 1⟩
    ⟨[((0 : Int), "A".data)], 1⟩ (by decide) (by decide)

end Twinkle
